import Mathlib

/-!
Verification of the template-engine facade in python-anytemplate.

The development shallowly embeds the code of src/anytemplate/engines/base.py
and src/anytemplate/compat.py: strings are Lean strings, the filesystem is an
explicit finite map from path to content, raised exceptions become the error
side of Except, and the two exception classes become the two constructors of
RenderError. Two pieces of the repository are referenced by the sources but
absent from them (anytemplate/utils.py and anytemplate/engines/string.py);
the definitions for those carry a doc comment starting with
"Modelled from the spec" and follow the specification text and the tests
under src/anytemplate/engines/tests/.
-/

namespace Anytemplate

/-- Error conditions of src/anytemplate/engines/base.py: the exception class
TemplateNotFound (a template file is missing) and the exception class
CompileError (a backend rejected the template), as the two constructors of
one error type so that their distinctness is a provable fact. -/
inductive RenderError where
  | templateNotFound (msg : String)
  | compileError (msg : String)
  deriving DecidableEq

/-- A context: a mapping from variable name to (stringified) value, modelled
as an association list. -/
abbrev Ctx := List (String × String)

/-- A filesystem modelled as a finite association list from path to file
content. -/
abbrev FS := List (String × String)

/-- Content of the file at a path, when the filesystem has one. -/
def fsRead (fs : FS) (p : String) : Option String :=
  (fs.find? (fun e => e.fst == p)).map Prod.snd

/-- Existence test on the modelled filesystem. -/
def fsExists (fs : FS) (p : String) : Bool :=
  (fsRead fs p).isSome

/-- Default encoding: src/anytemplate/compat.py derives ENCODING from the
locale at import time; none of the verified behavior depends on its value. -/
def ENCODING : String := "UTF-8"

/-- The final path component: the suffix after the last slash. Used to model
os.path.splitext, which looks only at the base name of the path. -/
def lastComponent (p : String) : String :=
  String.mk ((p.data.reverse.takeWhile (fun c => c != '/')).reverse)

/-- The extension part returned by os.path.splitext, as a character list:
the suffix of the base name from its last dot on, unless every character of
the base name before that dot is itself a dot (so a dotfile such as ".bashrc"
has no extension); empty when the base name has no dot. -/
def splitextExt (p : String) : List Char :=
  let rev := (lastComponent p).data.reverse
  let afterDot := rev.takeWhile (fun c => c != '.')
  match rev.dropWhile (fun c => c != '.') with
  | [] => []
  | _ :: before =>
    if before.any (fun c => c != '.') then '.' :: afterDot.reverse
    else []

/-- get_file_extension of src/anytemplate/compat.py: the splitext extension of
the path with its leading dot removed, or the empty string when there is
none. -/
def get_file_extension (filepath : String) : String :=
  match splitextExt filepath with
  | [] => ""
  | '.' :: restChars => String.mk restChars
  | e => String.mk e

/-- The class-level engine descriptor: BaseEngine in
src/anytemplate/engines/base.py declares the class attributes _name,
_file_extensions, _supported and _priority, which subclasses override. -/
structure EngineClass where
  _name : String
  _file_extensions : List String
  _supported : Bool
  _priority : Nat
  deriving DecidableEq

/-- Classmethod BaseEngine.name: returns the declared engine name. -/
def EngineClass.name (cls : EngineClass) : String :=
  cls._name

/-- Classmethod BaseEngine.file_extensions: returns the declared extension
list. -/
def EngineClass.file_extensions (cls : EngineClass) : List String :=
  cls._file_extensions

/-- Classmethod BaseEngine.supports: with no file, the supported flag; with a
file, the supported flag and the membership of the file extension in the
declared extension list. -/
def EngineClass.supports (cls : EngineClass) (template_file : Option String) : Bool :=
  match template_file with
  | none => cls._supported
  | some f => cls._supported && cls.file_extensions.contains (get_file_extension f)

/-- Classmethod BaseEngine.priority: returns the declared priority. -/
def EngineClass.priority (cls : EngineClass) : Nat :=
  cls._priority

/-- The class attributes of BaseEngine itself: name "base", no file
extensions, not supported, priority 99 (the comment in the source calls it
the lowest priority). -/
def BaseEngine : EngineClass :=
  { _name := "base", _file_extensions := [], _supported := false, _priority := 99 }

/-- fallback_renders of src/anytemplate/engines/base.py: does nothing and
returns the original template content. -/
def fallback_renders (template_content : String) (_context : Option Ctx)
    (_at_paths : Option (List String)) (_at_encoding : String) : String :=
  template_content

/-- Candidate paths tried when resolving a template name: the name itself when
no search paths are given, else each search directory joined with the name,
in order. -/
def searchCandidates (template : String) (at_paths : Option (List String)) :
    List String :=
  match at_paths with
  | none => [template]
  | some [] => [template]
  | some ps => ps.map (fun d => if d = "" then template else d ++ "/" ++ template)

/-- Modelled from the spec: anytemplate.utils.find_template_from_path is not
among the source files (only its caller fallback_render is). Per the
specification, a template reference is a file path resolved against an
ordered list of search directories with the first match winning, or treated
as a direct path. Returns the first candidate path that exists, or none when
no matching file exists on any search path. -/
def find_template_from_path (fs : FS) (template : String)
    (at_paths : Option (List String)) : Option String :=
  (searchCandidates template at_paths).find? (fun c => fsExists fs c)

/-- fallback_render of src/anytemplate/engines/base.py: locate the template
file on the search paths, raise TemplateNotFound when none is found,
otherwise return the content of the located file. The UnicodeDecodeError
retry in the source re-reads the same file and is content-neutral here; the
read itself is modelled by fsRead. -/
def fallback_render (fs : FS) (template : String) (_context : Option Ctx)
    (at_paths : Option (List String)) (_at_encoding : String) :
    Except RenderError String :=
  match find_template_from_path fs template at_paths with
  | none => Except.error (RenderError.templateNotFound ("template: " ++ template))
  | some tmpl =>
    match fsRead fs tmpl with
    | some content => Except.ok content
    | none => Except.error (RenderError.templateNotFound ("template: " ++ template))

/-- Keyword options forwarded to the impl methods; the only option the claims
exercise is safe mode. -/
structure Opts where
  safe : Bool
  deriving DecidableEq

/-- An engine instance: its class descriptor together with the renders_impl
and render_impl bodies that the renders and render methods dispatch to.
Subclasses override the impl fields; BaseEngine keeps the fallback
defaults. -/
structure Engine where
  cls : EngineClass
  renders_impl : String → Option Ctx → Option (List String) → String → Opts →
    Except RenderError String
  render_impl : FS → String → Option Ctx → Option (List String) → String → Opts →
    Except RenderError String

/-- Method BaseEngine.renders: logs and delegates to renders_impl. -/
def Engine.renders (e : Engine) (template_content : String) (context : Option Ctx)
    (at_paths : Option (List String)) (at_encoding : String) (opts : Opts) :
    Except RenderError String :=
  e.renders_impl template_content context at_paths at_encoding opts

/-- Method BaseEngine.render: logs and delegates to render_impl. -/
def Engine.render (e : Engine) (fs : FS) (template : String) (context : Option Ctx)
    (at_paths : Option (List String)) (at_encoding : String) (opts : Opts) :
    Except RenderError String :=
  e.render_impl fs template context at_paths at_encoding opts

/-- The BaseEngine instance: renders_impl and render_impl are not overridden,
so they are the fallback implementations of
src/anytemplate/engines/base.py. -/
def baseEngine : Engine where
  cls := BaseEngine
  renders_impl := fun tc ctx paths enc _opts =>
    Except.ok (fallback_renders tc ctx paths enc)
  render_impl := fun fs t ctx paths enc _opts =>
    fallback_render fs t ctx paths enc

/-- Leading character of an identifier placeholder (a letter or an
underscore), as in the standard string-template placeholder pattern. -/
def isIdentStart (c : Char) : Bool :=
  c.isAlpha || c == '_'

/-- Non-leading character of an identifier placeholder. -/
def isIdentChar (c : Char) : Bool :=
  c.isAlphanum || c == '_'

/-- Value bound to a variable name in a context. -/
def lookupCtx (ctx : Ctx) (k : String) : Option String :=
  (ctx.find? (fun e => e.fst == k)).map Prod.snd

/-- Modelled from the spec: the substitution pass of the string-substitution
adapter (anytemplate/engines/string.py is not among the source files; only
its tests under src/anytemplate/engines/tests/string.py are). A double dollar
renders one literal dollar; a dollar followed by an identifier is replaced by
the context value bound to that identifier; an undefined variable, or a
dollar not followed by an identifier, raises an error reported as
CompileError — unless safe mode is on, in which case the placeholder text is
kept verbatim and substitution continues. The recursion is structural on a
fuel count; the wrapper passes the content length, which is enough fuel since
every step consumes at least one character. -/
def substAux (fuel : Nat) (cs : List Char) (ctx : Ctx) (safe : Bool) :
    Except RenderError (List Char) :=
  match fuel, cs with
  | _, [] => Except.ok []
  | 0, _ :: _ => Except.error (RenderError.compileError "substitution step bound hit")
  | f + 1, c :: rest =>
    if c == '$' then
      match rest with
      | [] =>
        if safe then Except.ok ['$']
        else Except.error (RenderError.compileError "Invalid placeholder")
      | d :: rest2 =>
        if d == '$' then
          (substAux f rest2 ctx safe).map (fun t => '$' :: t)
        else if isIdentStart d then
          match lookupCtx ctx (String.mk (d :: rest2.takeWhile isIdentChar)) with
          | some v =>
            (substAux f (rest2.dropWhile isIdentChar) ctx safe).map
              (fun t => v.data ++ t)
          | none =>
            if safe then
              (substAux f (rest2.dropWhile isIdentChar) ctx safe).map
                (fun t => '$' :: (d :: rest2.takeWhile isIdentChar) ++ t)
            else
              Except.error (RenderError.compileError
                ("KeyError: " ++ String.mk (d :: rest2.takeWhile isIdentChar)))
        else
          if safe then (substAux f rest ctx safe).map (fun t => '$' :: t)
          else Except.error (RenderError.compileError "Invalid placeholder")
    else
      (substAux f rest ctx safe).map (fun t => c :: t)

/-- Modelled from the spec: renders_impl of the string-substitution adapter.
Safe mode uses the safe substitution, which never raises; otherwise an
undefined variable raises CompileError, and because the result is a whole
Except value, a failure carries no partial output. -/
def stringRenders_impl (template_content : String) (context : Option Ctx)
    (_at_paths : Option (List String)) (_at_encoding : String) (opts : Opts) :
    Except RenderError String :=
  (substAux template_content.length template_content.data
      (context.getD []) opts.safe).map (fun cs => String.mk cs)

/-- State-passing reading of the classmethod BaseEngine.name for the
immutability claim: the method body is a single return expression reading the
class attributes, so the translation returns the value together with the
class state left behind, which is the state received. -/
def name_call (cls : EngineClass) : String × EngineClass :=
  (cls.name, cls)

/-- State-passing reading of the classmethod BaseEngine.file_extensions. -/
def file_extensions_call (cls : EngineClass) : List String × EngineClass :=
  (cls.file_extensions, cls)

/-- State-passing reading of the classmethod BaseEngine.supports. -/
def supports_call (cls : EngineClass) (template_file : Option String) :
    Bool × EngineClass :=
  (cls.supports template_file, cls)

/-- State-passing reading of the classmethod BaseEngine.priority. -/
def priority_call (cls : EngineClass) : Nat × EngineClass :=
  (cls.priority, cls)

/-- State-passing reading of the method BaseEngine.renders: its body only
logs and delegates, so the engine state it leaves is the one received. -/
def renders_call (e : Engine) (template_content : String) (context : Option Ctx)
    (at_paths : Option (List String)) (at_encoding : String) (opts : Opts) :
    Except RenderError String × Engine :=
  (e.renders template_content context at_paths at_encoding opts, e)

/-- State-passing reading of the method BaseEngine.render. -/
def render_call (e : Engine) (fs : FS) (template : String) (context : Option Ctx)
    (at_paths : Option (List String)) (at_encoding : String) (opts : Opts) :
    Except RenderError String × Engine :=
  (e.render fs template context at_paths at_encoding opts, e)

/-- The suffix of the file name after the last dot, without the dot, and the
empty string when the final path component has no dot: the notion of
extension that claim C9 words. -/
def finalDotSuffix (p : String) : String :=
  let base := (lastComponent p).data
  if base.contains '.' then
    String.mk ((base.reverse.takeWhile (fun c => c != '.')).reverse)
  else ""

/-- Whether some character other than a dot precedes the last dot of the
final path component: the guard under which splitext grants an extension. -/
def hasStemBeforeLastDot (p : String) : Bool :=
  match (lastComponent p).data.reverse.dropWhile (fun c => c != '.') with
  | [] => false
  | _ :: before => before.any (fun c => c != '.')

/-- Absence of substitution markers: no dollar character in the content. -/
def noMarkers (s : String) : Bool :=
  s.data.all (fun c => c != '$')

/-- A well-formed engine descriptor per the specification: the priority lies
in the range 0 to 99 (the lower bound is inherent in Nat). -/
def ValidDescriptor (cls : EngineClass) : Prop :=
  cls._priority ≤ 99

/-- When dropWhile returns a nonempty list, its head fails the predicate and
belongs to the input list. -/
theorem dropWhile_eq_cons_head {α : Type} (p : α → Bool) :
    ∀ (l : List α) (a : α) (as : List α),
      l.dropWhile p = a :: as → p a = false ∧ a ∈ l := by
  intro l
  induction l with
  | nil => intro a as h; simp [List.dropWhile] at h
  | cons x xs ih =>
    intro a as h
    by_cases hp : p x
    · rw [List.dropWhile_cons_of_pos hp] at h
      obtain ⟨h1, h2⟩ := ih a as h
      exact ⟨h1, List.mem_cons_of_mem x h2⟩
    · rw [List.dropWhile_cons_of_neg hp] at h
      injection h with h1 h2
      subst h1
      exact ⟨Bool.eq_false_iff.mpr hp, List.mem_cons_self x xs⟩

/-- Substitution on marker-free content is the identity, for any fuel at
least the content length. -/
theorem substAux_of_noMarkers :
    ∀ (fuel : Nat) (cs : List Char) (ctx : Ctx) (safe : Bool),
      cs.length ≤ fuel → (∀ c ∈ cs, (c == '$') = false) →
      substAux fuel cs ctx safe = Except.ok cs := by
  intro fuel
  induction fuel with
  | zero =>
    intro cs ctx safe hl _
    cases cs with
    | nil => rfl
    | cons c rest => simp at hl
  | succ f ih =>
    intro cs ctx safe hl hm
    cases cs with
    | nil => rfl
    | cons c rest =>
      have hc : (c == '$') = false := hm c (List.mem_cons_self c rest)
      have hrest : substAux f rest ctx safe = Except.ok rest :=
        ih rest ctx safe (Nat.le_of_succ_le_succ hl)
          (fun x hx => hm x (List.mem_cons_of_mem c hx))
      simp [substAux, hc, hrest, Except.map]

/-- C1: for every engine descriptor, supports with a file argument is true iff
the supported flag is true and the extension of the file is a member of the
declared extension list; supports with no file argument returns exactly the
supported flag. -/
theorem c1_supports_spec (cls : EngineClass) (f : String) :
    (cls.supports (some f) = true ↔
      (cls._supported = true ∧ get_file_extension f ∈ cls.file_extensions)) ∧
    cls.supports none = cls._supported := by
  refine ⟨?_, rfl⟩
  simp [EngineClass.supports, List.elem_eq_mem]

/-- C2: the fallback renders operation returns the content string unchanged,
and so does the renders method of the base engine instance, whose
renders_impl is not overridden, for every content, context, search-path list
and encoding. -/
theorem c2_fallback_renders_identity (content : String) (ctx : Option Ctx)
    (paths : Option (List String)) (enc : String) (opts : Opts) :
    fallback_renders content ctx paths enc = content ∧
    baseEngine.renders content ctx paths enc opts = Except.ok content :=
  ⟨rfl, rfl⟩

/-- C3: the fallback render operation raises TemplateNotFound exactly when no
candidate path resolves to an existing file on the search paths, and
TemplateNotFound is a distinct error condition from CompileError. -/
theorem c3_fallback_render_not_found (fs : FS) (template : String)
    (ctx : Option Ctx) (paths : Option (List String)) (enc : String) :
    ((∃ msg, fallback_render fs template ctx paths enc =
        Except.error (RenderError.templateNotFound msg)) ↔
      ∀ c ∈ searchCandidates template paths, fsExists fs c = false) ∧
    (∀ m m', RenderError.templateNotFound m ≠ RenderError.compileError m') := by
  constructor
  · constructor
    · rintro ⟨msg, herr⟩ c hc
      cases hfind : find_template_from_path fs template paths with
      | none =>
        have := List.find?_eq_none.mp hfind c hc
        simpa using this
      | some tmpl =>
        exfalso
        have hex : fsExists fs tmpl = true := List.find?_some hfind
        obtain ⟨content, hcontent⟩ :=
          Option.isSome_iff_exists.mp (by simpa [fsExists] using hex)
        simp [fallback_render, hfind, hcontent] at herr
    · intro hall
      have hnone : find_template_from_path fs template paths = none := by
        apply List.find?_eq_none.mpr
        intro x hx
        simp [hall x hx]
      exact ⟨"template: " ++ template, by simp [fallback_render, hnone]⟩
  · intro m m' h
    cases h

/-- C4: when the template resolves to an existing file on the search paths,
fallback_render (and the render method of the base engine instance, whose
render_impl is not overridden) returns exactly the content of the located
file, for every context. -/
theorem c4_fallback_render_reads_file (fs : FS) (template tmpl content : String)
    (ctx : Option Ctx) (paths : Option (List String)) (enc : String) (opts : Opts)
    (hfind : find_template_from_path fs template paths = some tmpl)
    (hread : fsRead fs tmpl = some content) :
    fallback_render fs template ctx paths enc = Except.ok content ∧
    baseEngine.render fs template ctx paths enc opts = Except.ok content := by
  have h : fallback_render fs template ctx paths enc = Except.ok content := by
    simp [fallback_render, hfind, hread]
  exact ⟨h, h⟩

/-- Witness for C4 at a concrete filesystem: the file d/t.txt with content
"hello" is located through search path d and returned verbatim. -/
theorem c4_witness :
    fallback_render [("d/t.txt", "hello")] "t.txt" none (some ["d"]) "UTF-8" =
        Except.ok "hello" ∧
    Engine.render baseEngine [("d/t.txt", "hello")] "t.txt" none (some ["d"])
        "UTF-8" ⟨false⟩ = Except.ok "hello" :=
  c4_fallback_render_reads_file [("d/t.txt", "hello")] "t.txt" "d/t.txt" "hello"
    none (some ["d"]) "UTF-8" ⟨false⟩ (by decide) (by decide)

/-- C5: rendering the content made of a dollar and the letter a with the empty
context under the string-substitution adapter raises CompileError; with safe
mode enabled the same call returns the content unchanged instead of
raising. -/
theorem c5_string_safe_mode :
    (∃ msg, stringRenders_impl "$a" (some []) none ENCODING ⟨false⟩ =
        Except.error (RenderError.compileError msg)) ∧
    stringRenders_impl "$a" (some []) none ENCODING ⟨true⟩ = Except.ok "$a" :=
  ⟨⟨"KeyError: a", rfl⟩, rfl⟩

/-- C6: content with no substitution markers renders verbatim under every
adapter modelled here: the fallback renders operation, the renders method of
the base engine instance, and the string-substitution adapter in either
mode. -/
theorem c6_no_markers_verbatim (content : String) (ctx : Option Ctx)
    (paths : Option (List String)) (enc : String) (opts : Opts)
    (h : noMarkers content = true) :
    fallback_renders content ctx paths enc = content ∧
    baseEngine.renders content ctx paths enc opts = Except.ok content ∧
    stringRenders_impl content ctx paths enc opts = Except.ok content := by
  refine ⟨rfl, rfl, ?_⟩
  have hm : ∀ c ∈ content.data, (c == '$') = false := by
    intro c hc
    have := List.all_eq_true.mp h c hc
    simpa [bne] using this
  have hs := substAux_of_noMarkers content.length content.data
    (ctx.getD []) opts.safe (Nat.le_refl _) hm
  simp [stringRenders_impl, hs, Except.map]

/-- Witness for C6 at the concrete content "aaa" of the test
src/anytemplate/engines/tests/string.py. -/
theorem c6_witness :
    fallback_renders "aaa" none none "UTF-8" = "aaa" ∧
    Engine.renders baseEngine "aaa" none none "UTF-8" ⟨false⟩ = Except.ok "aaa" ∧
    stringRenders_impl "aaa" none none "UTF-8" ⟨false⟩ = Except.ok "aaa" :=
  c6_no_markers_verbatim "aaa" none none "UTF-8" ⟨false⟩ (by decide)

/-- C7: priority returns the declared priority integer, the base engine
priority is 99, and among descriptors whose priority lies in the specified
range 0 to 99 the base engine takes the largest value, hence the lowest
precedence. -/
theorem c7_priority_range (cls : EngineClass) (h : ValidDescriptor cls) :
    BaseEngine.priority = 99 ∧ cls.priority = cls._priority ∧
    cls.priority ≤ BaseEngine.priority :=
  ⟨rfl, rfl, h⟩

/-- Witness for C7 at the base engine descriptor itself. -/
theorem c7_witness :
    BaseEngine.priority = 99 ∧ BaseEngine.priority = BaseEngine._priority ∧
    BaseEngine.priority ≤ BaseEngine.priority :=
  c7_priority_range BaseEngine (Nat.le_refl 99)

/-- C8: the descriptor operations and the render operations never modify the
descriptor (the state each state-passing call returns is the state it
received), and repeating a descriptor operation in the state left by the
first call returns the same result. -/
theorem c8_descriptor_immutable (cls : EngineClass) (f : Option String)
    (e : Engine) (fs : FS) (tc t : String) (ctx : Option Ctx)
    (paths : Option (List String)) (enc : String) (opts : Opts) :
    ((name_call cls).2 = cls ∧ (file_extensions_call cls).2 = cls ∧
      (supports_call cls f).2 = cls ∧ (priority_call cls).2 = cls ∧
      (renders_call e tc ctx paths enc opts).2 = e ∧
      (render_call e fs t ctx paths enc opts).2 = e) ∧
    ((name_call ((name_call cls).2)).1 = (name_call cls).1 ∧
      (file_extensions_call ((file_extensions_call cls).2)).1 =
        (file_extensions_call cls).1 ∧
      (supports_call ((supports_call cls f).2) f).1 = (supports_call cls f).1 ∧
      (priority_call ((priority_call cls).2)).1 = (priority_call cls).1) :=
  ⟨⟨rfl, rfl, rfl, rfl, rfl, rfl⟩, rfl, rfl, rfl, rfl⟩

/-- C9 as stated fails at the dotfile ".bashrc": the suffix after its last dot
is "bashrc", yet the extracted extension is the empty string, because
splitext grants no extension when only dots precede the last dot of the base
name. -/
theorem c9_counterexample :
    get_file_extension ".bashrc" = "" ∧ finalDotSuffix ".bashrc" = "bashrc" ∧
    get_file_extension ".bashrc" ≠ finalDotSuffix ".bashrc" := by
  refine ⟨by decide, by decide, by decide⟩

/-- C9 amended: the extracted extension is the final dot suffix without the
dot whenever some character other than a dot precedes the last dot of the
final path component; otherwise (no dot at all, or a dotfile whose dots all
lead the name) it is the empty string — and a file whose extracted extension
is empty is supported only when the empty string is a declared extension. -/
theorem c9_extension_amended (p : String) (cls : EngineClass) :
    get_file_extension p =
      (if hasStemBeforeLastDot p then finalDotSuffix p else "") ∧
    (get_file_extension p = "" →
      cls.supports (some p) =
        (cls._supported && cls.file_extensions.contains "")) := by
  constructor
  · cases hdrop : (lastComponent p).data.reverse.dropWhile (fun c => c != '.') with
    | nil =>
      simp [get_file_extension, splitextExt, hasStemBeforeLastDot, hdrop]
    | cons d before =>
      obtain ⟨hd, hmem⟩ := dropWhile_eq_cons_head _ _ _ _ hdrop
      have hdot : d = '.' := by simpa using hd
      subst hdot
      have hcontains : '.' ∈ (lastComponent p).data := List.mem_reverse.mp hmem
      by_cases hb : before.any (fun c => c != '.')
      · simp [get_file_extension, splitextExt, hasStemBeforeLastDot,
          finalDotSuffix, hdrop, hb, hcontains]
      · simp [get_file_extension, splitextExt, hasStemBeforeLastDot,
          hdrop, hb]
  · intro hempty
    simp [EngineClass.supports, hempty]

/-- C10: the base engine is never selectable by a capability probe: supports
returns false with no argument and with every file path, since the supported
flag of the base engine is false; moreover its declared extension list is
empty. -/
theorem c10_base_never_supports (f : Option String) :
    BaseEngine.supports f = false ∧ BaseEngine._file_extensions = [] := by
  refine ⟨?_, rfl⟩
  cases f with
  | none => rfl
  | some s => rfl

end Anytemplate
